import Mathlib

/-!
Verification development for the `yt_pilot` playlist downloader.

The definitions below are shallow embeddings of the Python source under
`src/yt_downloader/`: pure functions become Lean functions, the retry loop
becomes a fuel-indexed recursion over a script of attempt outcomes, and
filesystem / network effects become explicit parameters (`String → Bool`
existence oracles, `Option`-valued fetch results).  Each definition's doc
comment names the Python function it embeds.
-/

/-! ## Shared string helpers (Python `in`, `str.strip`, `str.lower`) -/

/-- Python's substring test `needle in hay`, on the underlying character
lists. -/
def strContains (hay needle : String) : Bool :=
  (List.range (hay.data.length + 1)).any (fun i => needle.data.isPrefixOf (hay.data.drop i))

/-- Python's `str.lower()` on the character list (character-wise ASCII
lowering, which is what the compared markers exercise). -/
def strToLower (s : String) : String := ⟨s.data.map Char.toLower⟩

/-- Python's `str.strip()` (whitespace from both ends) on a character list. -/
def stripChars (cs : List Char) : List Char :=
  ((cs.dropWhile Char.isWhitespace).reverse.dropWhile Char.isWhitespace).reverse

/-- Python's `str.strip()` on a string. -/
def pyStrip (s : String) : String := ⟨stripChars s.data⟩

/-- Python's `x or default` applied to an optional string: `None` and the
empty string are falsy and yield the default. -/
def pyOrStr (o : Option String) (d : String) : String :=
  match o with
  | some s => if s = "" then d else s
  | none => d

/-! ## Data model (`models.py`)

`VideoItem`, `CaptionTrack`, `PlaylistSession.counts` and the manifest entry
shape, with timestamps abstracted to `Nat` counter values and the float
`duration` field abstracted to an opaque optional integer (it is only carried
through, never computed with). -/

/-- `CaptionTrack` dataclass from `models.py`. -/
structure CaptionTrackM where
  video_id : String
  language : String
  kind : String
  format : String
  path : String
deriving DecidableEq

/-- `VideoItem` dataclass from `models.py` (the fields the verified
components read or write). -/
structure VideoItemM where
  index : Nat
  video_id : String
  title : String
  preferred_quality : String
  selected_quality : Option String := none
  audio_only : Bool := false
  status : String := "pending"
  failure_reason : Option String := none
  fallback_applied : Bool := false
  retries : Int := 0
  size_bytes : Option Int := none
  duration : Option Int := none
  resolution : Option String := none
  filepath : Option String := none
  captions : List CaptionTrackM := []
  filename : Option String := none
deriving DecidableEq

/-- The `PlaylistSession.counts` dictionary from `models.py`. -/
structure Counts where
  total : Nat
  success : Nat
  failed : Nat
  skipped : Nat
  fallbacks : Nat
deriving DecidableEq

/-- The `default_factory` of `PlaylistSession.counts`: all five counters
start at zero. -/
def initCounts : Counts :=
  { total := 0, success := 0, failed := 0, skipped := 0, fallbacks := 0 }

/-- Status values a processed `VideoItem` can carry. -/
inductive VStatus where
  | pending
  | success
  | failed
  | skipped
deriving DecidableEq

/-- The per-item counts update at the end of
`PlaylistDownloader._process_video_enriched` (downloader.py lines 254-264):
one of `success`/`failed`/`skipped` is bumped according to the item's status,
then `total`, then `fallbacks` when the item's fallback flag is set. -/
def incrementCounts (c : Counts) (status : VStatus) (fallbackApplied : Bool) : Counts :=
  let c1 :=
    match status with
    | .success => { c with success := c.success + 1 }
    | .failed => { c with failed := c.failed + 1 }
    | .skipped => { c with skipped := c.skipped + 1 }
    | .pending => c
  let c2 := { c1 with total := c1.total + 1 }
  if fallbackApplied then { c2 with fallbacks := c2.fallbacks + 1 } else c2

/-- One completed item as seen by the counts update: its terminal status and
whether a quality fallback was applied. -/
structure OutcomeM where
  status : VStatus
  fallbackApplied : Bool

/-- Folding a batch of completions into counts, starting from a given state. -/
def runBatchFrom (c : Counts) (os : List OutcomeM) : Counts :=
  os.foldl (fun acc o => incrementCounts acc o.status o.fallbackApplied) c

/-- A whole batch starting from the session's initial all-zero counts. -/
def runBatch (os : List OutcomeM) : Counts := runBatchFrom initCounts os

/-- The status `_process_video_enriched` assigns to the item from the inner
`VideoResult`: `"success"` maps to success, every other result is failed. -/
def enrichedStatus (vrStatus : String) : VStatus :=
  if vrStatus = "success" then .success else .failed

/-! ## Caption pipeline (`captions.py`, `CaptionsService.obtain`)

The two network fetches `fetch_manual` / `fetch_auto` are abstracted as their
`Option`-valued results; `obtain` is transcribed statement by statement,
including the early return inside the implicit-auto-fallback branch. -/

/-! ## Retry policy (`downloader.py`, `PlaylistDownloader._process_video`)

The `while attempts < 3` loop is embedded as a recursion decreasing in
`3 - attempts`.  A "script" `Nat → AttemptOutcome` says, for each call of the
try-body (indexed by how many calls came before), whether the body returned a
`VideoResult` or raised an exception.  `time.sleep(1 * attempts)` is recorded
as the slept duration instead of actually sleeping. -/

/-- The mirror of the `VideoResult` dataclass (downloader.py lines 25-32). -/
structure VideoResultM where
  url : String
  title : String
  status : String
  quality : Option String := none
  failure_reason : Option String := none
  fallback_applied : Bool := false
deriving DecidableEq

/-- Which `except` clause an exception lands in: `yt_dlp.DownloadError` or a
generic `Exception`. -/
inductive ErrKind where
  | downloadError
  | otherError
deriving DecidableEq

/-- An exception raised by the try-body: its clause and its message. -/
structure ErrInfo where
  kind : ErrKind
  msg : String
deriving DecidableEq

/-- Python's `last_exc.__class__.__name__` for the two modelled clauses. -/
def errClassName (e : ErrInfo) : String :=
  match e.kind with
  | .downloadError => "DownloadError"
  | .otherError => "Exception"

/-- The failure description built at downloader.py line 455:
`f"{last_exc.__class__.__name__}: {last_exc}"`. -/
def errDescription (e : ErrInfo) : String :=
  errClassName e ++ ": " ++ e.msg

/-- The permanent-error markers checked in the `DownloadError` clause
(downloader.py line 432). -/
def permanentMarkersDL : List String := ["400", "403", "404", "410", "private", "deleted"]

/-- The permanent-error markers checked in the generic `Exception` clause
(downloader.py line 443). -/
def permanentMarkersOther : List String := ["400", "403", "404", "410"]

/-- The code's permanent/transient classification: a marker occurring as a
substring of the lowercased message short-circuits the retry loop. -/
def isPermanentErr (e : ErrInfo) : Bool :=
  match e.kind with
  | .downloadError => permanentMarkersDL.any (fun c => strContains (strToLower e.msg) c)
  | .otherError => permanentMarkersOther.any (fun c => strContains (strToLower e.msg) c)

/-- One call of the try-body of `_process_video`: either it returns a
`VideoResult` (any of the in-body `return` statements) or it raises. -/
inductive AttemptOutcome where
  | ret (r : VideoResultM)
  | raise (e : ErrInfo)

/-- The state when the retry loop finishes: the value returned from inside
the loop (if any), the number of try-body calls made, the recorded backoff
sleeps in order, and Python's `last_exc`. -/
structure RetryTrace where
  result : Option VideoResultM
  calls : Nat
  sleeps : List Nat
  lastExc : Option ErrInfo
deriving DecidableEq

/-- The retry loop of `_process_video` (downloader.py lines 273-448).
`calls` counts try-body invocations so far, `attempts` is the Python
`attempts` counter. -/
def retryGo (script : Nat → AttemptOutcome) (calls attempts : Nat)
    (sleeps : List Nat) (lastExc : Option ErrInfo) : RetryTrace :=
  if _h : attempts < 3 then
    match script calls with
    | .ret r => { result := some r, calls := calls + 1, sleeps := sleeps, lastExc := lastExc }
    | .raise e =>
      if isPermanentErr e then
        { result := none, calls := calls + 1, sleeps := sleeps, lastExc := some e }
      else
        if attempts + 1 ≥ 3 then
          { result := none, calls := calls + 1, sleeps := sleeps, lastExc := some e }
        else
          retryGo script (calls + 1) (attempts + 1) (sleeps ++ [1 * (attempts + 1)]) (some e)
  else
    { result := none, calls := calls, sleeps := sleeps, lastExc := lastExc }
termination_by 3 - attempts
decreasing_by omega

/-- `PlaylistDownloader._process_video` as a whole: run the loop from
`attempts = 0`, and on loop exhaustion build the terminal failed result from
`last_exc` (downloader.py lines 450-457).  Returns the result together with
the observable trace (calls made, sleeps performed). -/
def processVideo (script : Nat → AttemptOutcome) (url : String) :
    Option VideoResultM × Nat × List Nat :=
  let t := retryGo script 0 0 [] none
  match t.result with
  | some r => (some r, t.calls, t.sleeps)
  | none =>
    match t.lastExc with
    | some e =>
      (some { url := url, title := url, status := "failed",
              failure_reason := some (errDescription e) }, t.calls, t.sleeps)
    | none => (none, t.calls, t.sleeps)

/-! ## Manifest (`manifest.py`)

The on-disk JSON is modelled by a small JSON value type; `Manifest.save`
produces the encoded value, `Manifest.load` consumes an optional
(existing? / parsable?) value.  The update keyed by `video_id` mirrors
Python dict assignment: replacement in place for an existing key, append for
a new one. -/

/-- A manifest entry as written by `Manifest.update_video`
(manifest.py lines 39-45). -/
structure EntryM where
  status : String
  quality : Option String
  fallback : Bool
  retries : Int
  filename : Option String
deriving DecidableEq

/-- The `Manifest.data` dictionary: source url plus the ordered mapping from
video id to last outcome. -/
structure ManifestData where
  playlist_url : Option String
  videos : List (String × EntryM)
deriving DecidableEq

/-- The fresh state from `Manifest.__init__` (and the corruption reset):
`{"playlist_url": None, "videos": {}}`. -/
def emptyManifestData : ManifestData := { playlist_url := none, videos := [] }

/-- Python dict assignment `d[k] = e` on an insertion-ordered mapping. -/
def updVideos (vs : List (String × EntryM)) (k : String) (e : EntryM) :
    List (String × EntryM) :=
  if vs.any (fun p => p.1 == k) then
    vs.map (fun p => if p.1 == k then (k, e) else p)
  else vs ++ [(k, e)]

/-- The entry recorded for a video by `Manifest.update_video`. -/
def entryOfVideo (v : VideoItemM) : EntryM :=
  { status := v.status, quality := v.selected_quality, fallback := v.fallback_applied,
    retries := v.retries, filename := v.filename }

/-- `Manifest.update_video` (manifest.py lines 36-45). -/
def Manifest.update_video (d : ManifestData) (v : VideoItemM) : ManifestData :=
  { d with videos := updVideos d.videos v.video_id (entryOfVideo v) }

/-- `Manifest.set_playlist` (manifest.py lines 33-34). -/
def Manifest.set_playlist (d : ManifestData) (url : String) : ManifestData :=
  { d with playlist_url := some url }

/-- JSON values as produced by `json.dumps` / consumed by `json.loads`
(the fragment a manifest file uses: null, booleans, integers, strings,
objects). -/
inductive JVal where
  | jnull
  | jbool (b : Bool)
  | jint (n : Int)
  | jstr (s : String)
  | jobj (fields : List (String × JVal))

/-- Encoding of an optional string field (`None` becomes JSON null). -/
def encodeOptStr : Option String → JVal
  | none => .jnull
  | some s => .jstr s

/-- The JSON object `Manifest.update_video` stores per video. -/
def encodeEntry (e : EntryM) : JVal :=
  .jobj [("status", .jstr e.status), ("quality", encodeOptStr e.quality),
         ("fallback", .jbool e.fallback), ("retries", .jint e.retries),
         ("filename", encodeOptStr e.filename)]

/-- The JSON object written by `Manifest.save` (manifest.py lines 47-48). -/
def encodeManifest (d : ManifestData) : JVal :=
  .jobj [("playlist_url", encodeOptStr d.playlist_url),
         ("videos", .jobj (d.videos.map (fun p => (p.1, encodeEntry p.2))))]

/-- Key lookup in a JSON object's field list. -/
def jlookup : List (String × JVal) → String → Option JVal
  | [], _ => none
  | (k, v) :: rest, key => if k = key then some v else jlookup rest key

/-- Reading an optional-string field back. -/
def decodeOptStr : JVal → Option (Option String)
  | .jnull => some none
  | .jstr s => some (some s)
  | _ => none

/-- Reading one stored entry back, field by field as the code accesses it. -/
def decodeEntry (j : JVal) : Option EntryM :=
  match j with
  | .jobj fs =>
    match jlookup fs "status", jlookup fs "quality", jlookup fs "fallback",
          jlookup fs "retries", jlookup fs "filename" with
    | some (.jstr st), some q, some (.jbool fb), some (.jint r), some fn =>
      match decodeOptStr q, decodeOptStr fn with
      | some q2, some fn2 =>
        some { status := st, quality := q2, fallback := fb, retries := r, filename := fn2 }
      | _, _ => none
    | _, _, _, _, _ => none
  | _ => none

/-- Reading the `videos` mapping back, preserving order. -/
def decodeVideos : List (String × JVal) → Option (List (String × EntryM))
  | [] => some []
  | (k, j) :: rest =>
    match decodeEntry j, decodeVideos rest with
    | some e, some es => some ((k, e) :: es)
    | _, _ => none

/-- Reading a whole manifest value back into the typed state. -/
def decodeManifest (j : JVal) : Option ManifestData :=
  match j with
  | .jobj fs =>
    match jlookup fs "playlist_url", jlookup fs "videos" with
    | some pu, some (.jobj vs) =>
      match decodeOptStr pu, decodeVideos vs with
      | some pu2, some vs2 => some { playlist_url := pu2, videos := vs2 }
      | _, _ => none
    | _, _ => none
  | _ => none

/-- `Manifest.load` (manifest.py lines 22-31).  The on-disk state is
`none` when no manifest file exists, `some none` when the file exists but its
content is unparsable (the `except` branch resets to the empty state), and
`some (some j)` for a parsed JSON value, which is then read back into the
typed state. -/
def Manifest.load (onDisk : Option (Option JVal)) : ManifestData :=
  match onDisk with
  | none => emptyManifestData
  | some none => emptyManifestData
  | some (some j) => (decodeManifest j).getD emptyManifestData

/-- `Manifest.compute_skips` (manifest.py lines 50-57): ids whose entry is a
success and whose recorded filename is truthy and exists on disk.
`fsExists` models `(directory / fn).exists()`. -/
def Manifest.compute_skips (d : ManifestData) (fsExists : String → Bool) : List String :=
  (d.videos.filter (fun p =>
    p.2.status == "success" &&
    (match p.2.filename with
     | some fn => fn != "" && fsExists fn
     | none => false))).map Prod.fst

/-! ## Filter / range engine (`filtering.py`) -/

/-- The error raised by `parse_index_range` and the `ValueError` Python's
`int()` raises on a non-numeric part. -/
inductive RangeErr where
  | indexRangeError (msg : String)
  | valueError (part : String)
deriving DecidableEq

/-- Numeric value of a list of decimal digits. -/
def digitsVal (cs : List Char) : Nat :=
  cs.foldl (fun acc c => acc * 10 + (c.toNat - '0'.toNat)) 0

/-- Python's `int(s)` on the inputs a range spec can carry: surrounding
whitespace stripped, an optional sign, then a non-empty run of decimal
digits; anything else raises `ValueError` (`none` here). -/
def parsePyInt (s : String) : Option Int :=
  match stripChars s.data with
  | [] => none
  | c :: rest =>
    if c = '-' then
      if rest ≠ [] ∧ rest.all Char.isDigit then some (-(digitsVal rest : Int)) else none
    else if c = '+' then
      if rest ≠ [] ∧ rest.all Char.isDigit then some (digitsVal rest : Int) else none
    else if (c :: rest).all Char.isDigit then some (digitsVal (c :: rest) : Int)
    else none

/-- Python's `spec.split(":", 1)`: the text before the first colon and the
text after it (the spec is guaranteed to contain a colon at the call site). -/
def splitOnceColon (s : String) : String × String :=
  (⟨s.data.takeWhile (fun c => c ≠ ':')⟩, ⟨(s.data.dropWhile (fun c => c ≠ ':')).drop 1⟩)

/-- `parse_index_range` (filtering.py lines 11-21).  `none`/empty specs parse
to open bounds, a colon is required, each present side is parsed with
`int()`, and `end < start` (both present) is the validation error. -/
def parse_index_range (spec : Option String) : Except RangeErr (Option Int × Option Int) :=
  match spec with
  | none => .ok (none, none)
  | some s =>
    if s = "" then .ok (none, none)
    else if !strContains s ":" then .error (.indexRangeError "Index range must contain colon")
    else
      let parts := splitOnceColon s
      let startR : Except RangeErr (Option Int) :=
        if parts.1 = "" then .ok none
        else match parsePyInt parts.1 with
          | some n => .ok (some n)
          | none => .error (.valueError parts.1)
      match startR with
      | .error e => .error e
      | .ok start =>
        let endR : Except RangeErr (Option Int) :=
          if parts.2 = "" then .ok none
          else match parsePyInt parts.2 with
            | some n => .ok (some n)
            | none => .error (.valueError parts.2)
        match endR with
        | .error e => .error e
        | .ok endv =>
          match start, endv with
          | some a, some b =>
            if b < a then .error (.indexRangeError "End before start") else .ok (some a, some b)
          | _, _ => .ok (start, endv)

/-- The positional part of the per-item keep condition in `apply_filters`:
the item survives when no present bound excludes its 1-based index. -/
def inIndexRange (start endv : Option Int) (v : VideoItemM) : Bool :=
  (match start with | some s => decide (s ≤ (v.index : Int)) | none => true) &&
  (match endv with | some e => decide ((v.index : Int) ≤ e) | none => true)

/-- `apply_filters` (filtering.py lines 24-41): lowercased non-blank terms,
range bounds from `parse_index_range`, then one stable pass keeping items
inside the bounds whose title matches some term (when any terms exist). -/
def apply_filters (videos : List VideoItemM) (filters : Option (List String))
    (index_range : Option String) : Except RangeErr (List VideoItemM) :=
  let terms := (filters.getD []).filterMap
    (fun f => if pyStrip f = "" then none else some (strToLower f))
  match parse_index_range index_range with
  | .error e => .error e
  | .ok bounds =>
    .ok (videos.filter (fun v =>
      inIndexRange bounds.1 bounds.2 v &&
      (terms.isEmpty || terms.any (fun t => strContains (strToLower v.title) t))))

/-! ## Playlist planning (`downloader.py`, `download_playlist` lines 111-143)

Building the provisional item list from the extracted playlist entries:
`None` entries are dropped (their index still advances), ids in the resume
skip set are dropped, and then `apply_filters` narrows the list — all before
anything is submitted to the worker pool. -/

/-- One playlist entry as returned by the flat extraction (`entry` may be
`None` in Python, hence the `Option` at the use site). -/
structure PEntry where
  id : String
  title : Option String
  url : Option String
deriving DecidableEq

/-- `entry.get("url") or f"https://www.youtube.com/watch?v={entry['id']}"`. -/
def entryVideoUrl (e : PEntry) : String :=
  match e.url with
  | some u => if u = "" then "https://www.youtube.com/watch?v=" ++ e.id else u
  | none => "https://www.youtube.com/watch?v=" ++ e.id

/-- The loop at downloader.py lines 121-141, carrying the 1-based enumerate
counter. -/
def buildItemsGo (skipIds : List String) (pq : String) (au : Bool) :
    List (Option PEntry) → Nat → List VideoItemM
  | [], _ => []
  | none :: rest, idx => buildItemsGo skipIds pq au rest (idx + 1)
  | some e :: rest, idx =>
    if skipIds.contains e.id then buildItemsGo skipIds pq au rest (idx + 1)
    else
      { index := idx, video_id := e.id, title := e.title.getD (entryVideoUrl e),
        preferred_quality := pq, audio_only := au } :: buildItemsGo skipIds pq au rest (idx + 1)

/-- The provisional item list (enumerate starts at 1). -/
def buildItems (entries : List (Option PEntry)) (skipIds : List String)
    (pq : String) (au : Bool) : List VideoItemM :=
  buildItemsGo skipIds pq au entries 1

/-- The skip set actually used by `download_playlist` (lines 115-117): the
manifest-computed skips only on a resume run without `--force`. -/
def effectiveSkips (resume force : Bool) (d : ManifestData) (fsExists : String → Bool) :
    List String :=
  if resume && !force then Manifest.compute_skips d fsExists else []

/-- The full planning stage of `download_playlist`: resume skips are applied
while building the item list, then filters/range narrow it; the result is
what gets submitted to the worker pool. -/
def planPlaylist (entries : List (Option PEntry)) (resume force : Bool)
    (d : ManifestData) (fsExists : String → Bool) (filters : Option (List String))
    (index_range : Option String) (pq : String) (au : Bool) :
    Except RangeErr (List VideoItemM) :=
  apply_filters (buildItems entries (effectiveSkips resume force d fsExists) pq au)
    filters index_range

/-- `CaptionsService.obtain` (captions.py lines 329-357). -/
def CaptionsService.obtain (manualRes autoRes : Option CaptionTrackM)
    (want_manual want_auto : Bool) : List CaptionTrackM :=
  let tracks : List CaptionTrackM := []
  let st :=
    if want_manual then
      match manualRes with
      | some m => (tracks ++ [m], true)
      | none => (tracks, false)
    else (tracks, false)
  let tracks := st.1
  let manual_obtained := st.2
  if !manual_obtained && want_manual && !want_auto then
    match autoRes with
    | some a => tracks ++ [a]
    | none =>
      if want_auto && !manual_obtained then
        match autoRes with
        | some a => tracks ++ [a]
        | none => tracks
      else tracks
  else
    if want_auto && !manual_obtained then
      match autoRes with
      | some a => tracks ++ [a]
      | none => tracks
    else tracks

/-! ## Quality / format selection (`downloader.py`, `_process_video`)

The in-process metadata selection (lines 312-341) and the yt-dlp format
selector string handed to the download call (lines 370-389).  A format
descriptor keeps the fields the selection reads; `None` bitrates model
missing keys, and Python's `x or 0` sort keys become `Option.getD 0`. -/

/-- One entry of `info["formats"]` with the fields the selection reads. -/
structure FormatM where
  format_id : String
  acodec : Option String
  vcodec : Option String
  abr : Option Int
  height : Option Int
  tbr : Option Int
deriving DecidableEq

/-- `f.get("acodec") not in ["none", None]`. -/
def hasAudio (f : FormatM) : Bool :=
  match f.acodec with
  | none => false
  | some s => s != "none"

/-- `f.get("vcodec") in ["none", None]`. -/
def noVideo (f : FormatM) : Bool :=
  match f.vcodec with
  | none => true
  | some s => s == "none"

/-- `f.get("vcodec") not in ["none", None]`. -/
def hasVideo (f : FormatM) : Bool := !noVideo f

/-- Truthiness of `f.get("height")`: present and non-zero. -/
def heightTruthy (f : FormatM) : Bool :=
  match f.height with
  | some h => h != 0
  | none => false

/-- Sort key `f.get("abr") or 0`. -/
def abrKey (f : FormatM) : Int := f.abr.getD 0

/-- Sort key component `f.get("height") or 0`. -/
def heightKey (f : FormatM) : Int := f.height.getD 0

/-- Sort key component `f.get("tbr") or 0`. -/
def tbrKey (f : FormatM) : Int := f.tbr.getD 0

/-- Left-to-right scan keeping the earliest element of maximal `abrKey`. -/
def pickMaxAbrGo : Option FormatM → List FormatM → Option FormatM
  | acc, [] => acc
  | none, f :: rest => pickMaxAbrGo (some f) rest
  | some g, f :: rest =>
    pickMaxAbrGo (if abrKey g < abrKey f then some f else some g) rest

/-- Head of a stable descending sort by `abrKey`: the earliest format with
the maximal audio bitrate (`afmts.sort(key=..., reverse=True); afmts[0]`). -/
def pickMaxAbr (l : List FormatM) : Option FormatM := pickMaxAbrGo none l

/-- Left-to-right scan keeping the earliest element of maximal
`(heightKey, tbrKey)` (lexicographic). -/
def pickMaxHeightTbrGo : Option FormatM → List FormatM → Option FormatM
  | acc, [] => acc
  | none, f :: rest => pickMaxHeightTbrGo (some f) rest
  | some g, f :: rest =>
    pickMaxHeightTbrGo
      (if heightKey g < heightKey f || (heightKey g == heightKey f && tbrKey g < tbrKey f)
       then some f else some g) rest

/-- Head of a stable descending sort by `(heightKey, tbrKey)`
lexicographically. -/
def pickMaxHeightTbr (l : List FormatM) : Option FormatM := pickMaxHeightTbrGo none l

/-- The audio-only branch of the in-process selection (lines 314-321): only
formats that have audio and no video are considered, best audio bitrate
first, and nothing else is tried. -/
def audioCandidates (formats : List FormatM) : List FormatM :=
  formats.filter (fun f => hasAudio f && noVideo f)

/-- The video branch of the in-process selection (lines 322-341): combined
formats at or under the target height, then any combined format. -/
def selectVideoFormat (formats : List FormatM) (targetHeight : Int) : Option FormatM :=
  let candidates := formats.filter (fun f =>
    heightTruthy f && decide (heightKey f ≤ targetHeight) && hasVideo f && hasAudio f)
  match pickMaxHeightTbr candidates with
  | some f => some f
  | none =>
    let combined := formats.filter (fun f => hasVideo f && hasAudio f && heightTruthy f)
    pickMaxHeightTbr combined

/-- The whole in-process selection (lines 312-341). -/
def selectInProcessFormat (formats : List FormatM) (audioOnly : Bool)
    (targetHeight : Int) : Option FormatM :=
  if audioOnly then pickMaxAbr (audioCandidates formats)
  else selectVideoFormat formats targetHeight

/-- The `format` value put into `download_opts` (lines 370-389):
`"bestaudio/best"` for audio-only mode, the height-constrained video chain
otherwise. -/
def downloadFormatSelector (audioOnly : Bool) (qualityHeight : Int) : String :=
  if audioOnly then "bestaudio/best"
  else
    "bestvideo[height<=" ++ toString qualityHeight ++ "]+bestaudio/best[height<=" ++
      toString qualityHeight ++ "]/best"

/-- Splitting a character list on a separator character. -/
def splitChar (sep : Char) : List Char → List (List Char)
  | [] => [[]]
  | c :: rest =>
    let r := splitChar sep rest
    if c = sep then [] :: r
    else
      match r with
      | [] => [[c]]
      | h :: t => (c :: h) :: t

/-- The fallback chain a yt-dlp format string denotes: its `/`-separated
alternatives, tried left to right. -/
def selectorChain (s : String) : List String :=
  (splitChar '/' s.data).map (fun cs => ⟨cs⟩)

/-- A chain step that requests video: an explicit `bestvideo` component or a
height-constrained selector. -/
def isVideoFallbackStep (step : String) : Bool :=
  strContains step "video" || strContains step "height"

/-! ## Session report (`reporting.py`)

Timestamps are abstracted to `Nat` clock values; `isoformat` renders them.
`build_session_report` takes the clock value of the moment it is called,
because the code stamps `datetime.utcnow()` when the session has no end
timestamp. -/

/-- Rendering of an abstracted timestamp (`datetime.isoformat`). -/
def isoformat (t : Nat) : String := toString t

/-- `PlaylistSession` (models.py lines 58-77) restricted to the fields the
report reads. -/
structure SessionM where
  playlist_url : String
  session_id : String
  started : Nat
  ended : Option Nat
  quality_order : List String
  audio_only : Bool
  counts : Counts
  videos : List VideoItemM
  config_snapshot : List (String × String)
deriving DecidableEq

/-- One element of the report's `failures` list. -/
structure FailureEntry where
  videoId : String
  reason : String
deriving DecidableEq

/-- One element of the report's `fallbacks` list. -/
structure FallbackEntry where
  videoId : String
  fromQ : String
  toQ : Option String
deriving DecidableEq

/-- The dictionary `_video_summary` builds per item (reporting.py
lines 38-51). -/
structure VideoSummaryM where
  videoId : String
  title : String
  status : String
  quality : Option String
  fallback : Bool
  retries : Int
  sizeBytes : Option Int
  duration : Option Int
  resolution : Option String
  filepath : Option String
  captions : List CaptionTrackM
deriving DecidableEq

/-- `_video_summary` (reporting.py lines 38-51). -/
def videoSummary (v : VideoItemM) : VideoSummaryM :=
  { videoId := v.video_id, title := v.title, status := v.status,
    quality := v.selected_quality, fallback := v.fallback_applied,
    retries := v.retries, sizeBytes := v.size_bytes, duration := v.duration,
    resolution := v.resolution, filepath := v.filepath, captions := v.captions }

/-- The `Report` dataclass (reporting.py lines 15-27). -/
structure ReportM where
  schema_version : String
  playlist_url : String
  session_id : String
  started : String
  ended : String
  quality_order : List String
  config_snapshot : List (String × String)
  counts : Counts
  failures : List FailureEntry
  fallbacks : List FallbackEntry
  videos : List VideoSummaryM
deriving DecidableEq

/-- `SCHEMA_VERSION` (reporting.py line 12). -/
def SCHEMA_VERSION : String := "1.1.0"

/-- `build_session_report` (reporting.py lines 54-78).  `now` is the value
`datetime.utcnow()` would return at this call, used only when the session
has no end timestamp (`ended = session.ended or datetime.utcnow()`). -/
def build_session_report (s : SessionM) (now : Nat) : ReportM :=
  let ended := s.ended.getD now
  { schema_version := SCHEMA_VERSION,
    playlist_url := s.playlist_url,
    session_id := s.session_id,
    started := isoformat s.started,
    ended := isoformat ended,
    quality_order := s.quality_order,
    config_snapshot := s.config_snapshot,
    counts := s.counts,
    failures := (s.videos.filter (fun v => v.status == "failed")).map
      (fun v => { videoId := v.video_id, reason := pyOrStr v.failure_reason "unknown" }),
    fallbacks := (s.videos.filter (fun v => v.fallback_applied)).map
      (fun v => { videoId := v.video_id, fromQ := v.preferred_quality,
                  toQ := v.selected_quality }),
    videos := s.videos.map videoSummary }

/-! ## Naming engine (`naming.py`)

Templates are embedded as their parsed field lists: literal runs (containing
no brace characters) interleaved with `{name}` / `{name:spec}` fields, which
is the fragment `str.format` sees for the repository's templates.  The
supported format specs are the zero-padded integer ones (`"03d"` style) the
mapping's only integer value (`index`) is used with. -/

/-- One piece of a naming template. -/
inductive TPart where
  | lit (s : String)
  | tok (name : String) (spec : Option String)
deriving DecidableEq

/-- A mapping value: `index` is an int, every other token renders a string. -/
inductive MVal where
  | int (n : Int)
  | str (s : String)
deriving DecidableEq

/-- `ALLOWED_TOKENS` (naming.py line 11). -/
def ALLOWED_TOKENS : List String :=
  ["index", "title", "quality", "video_id", "date", "audio_only"]

/-- The keyword mapping built by `expand_template` (naming.py lines 36-43);
`date` is the caller-supplied ISO date string. -/
def namingMapping (v : VideoItemM) (date : String) : List (String × MVal) :=
  [("index", .int (v.index : Int)),
   ("title", .str v.title),
   ("quality", .str (pyOrStr v.selected_quality v.preferred_quality)),
   ("video_id", .str v.video_id),
   ("date", .str date),
   ("audio_only", .str (if v.audio_only then "true" else "false"))]

/-- Mapping lookup (`format`'s field resolution; a miss is a `KeyError`). -/
def lookupM : List (String × MVal) → String → Option MVal
  | [], _ => none
  | (k, v) :: rest, key => if k = key then some v else lookupM rest key

/-- Left-pad a rendered number with zeros to the requested width. -/
def padZeros (w : Nat) (s : String) : String :=
  if s.length < w then ⟨List.replicate (w - s.length) '0'⟩ ++ s else s

/-- Parse a zero-padded decimal format spec of the shape `0<width>d`
(the shape the repository's templates use). -/
def parseIntSpec (spec : String) : Option Nat :=
  match spec.data with
  | '0' :: rest =>
    if rest.dropLast ≠ [] ∧ rest.getLast? = some 'd' ∧ rest.dropLast.all Char.isDigit then
      some (digitsVal rest.dropLast)
    else none
  | _ => none

/-- `format(n, "0<w>d")`: sign first, zeros pad the remaining width. -/
def formatIntSpec (w : Nat) (n : Int) : String :=
  if n < 0 then "-" ++ padZeros (w - 1) (toString n.natAbs)
  else padZeros w (toString n.natAbs)

/-- Rendering one resolved field.  Specs outside the supported zero-padded
integer shape fall back to plain rendering; theorems about templates restrict
to supported spec/value pairs (`specOkFor`). -/
def applySpec (spec : Option String) (v : MVal) : String :=
  match spec, v with
  | none, .int n => toString n
  | none, .str s => s
  | some sp, .int n =>
    match parseIntSpec sp with
    | some w => formatIntSpec w n
    | none => toString n
  | some _, .str s => s

/-- Whether a spec/value pair is inside the modelled `format` fragment. -/
def specOkFor (v : MVal) : Option String → Bool
  | none => true
  | some sp =>
    match v with
    | .int _ => (parseIntSpec sp).isSome
    | .str _ => false

/-- `template.format(**mapping)`: fields are resolved left to right and the
first unresolvable one raises `KeyError` with its name. -/
def formatParts (m : List (String × MVal)) : List TPart → Except String String
  | [] => .ok ""
  | .lit s :: rest =>
    match formatParts m rest with
    | .ok t => .ok (s ++ t)
    | .error e => .error e
  | .tok n sp :: rest =>
    match lookupM m n with
    | none => .error n
    | some v =>
      match formatParts m rest with
      | .ok t => .ok (applySpec sp v ++ t)
      | .error e => .error e

/-- The unknown-token detection loop (naming.py lines 45-50): the warned
names, in template order. -/
def unknownTokens (ps : List TPart) : List String :=
  ps.filterMap (fun p =>
    match p with
    | .tok n _ => if ALLOWED_TOKENS.contains n then none else some n
    | .lit _ => none)

/-- The source text of one template piece. -/
def partSource : TPart → String
  | .lit s => s
  | .tok n none => "\x7b" ++ n ++ "\x7d"
  | .tok n (some sp) => "\x7b" ++ n ++ ":" ++ sp ++ "\x7d"

/-- The template's source string. -/
def templateSource (ps : List TPart) : String :=
  String.join (ps.map partSource)

/-- The `except KeyError` recovery (naming.py lines 53-55):
`template.replace(f"{{{token}}}", "")` deletes every bare occurrence of the
failing token from the raw template text; everything else, fields included,
stays as source text. -/
def removeBareTok (ps : List TPart) (t : String) : String :=
  String.join (ps.map (fun p =>
    match p with
    | .tok n none => if n = t then "" else partSource p
    | _ => partSource p))

/-- `INVALID_CHARS` (naming.py line 9). -/
def isInvalidChar (c : Char) : Bool :=
  ['\\', '/', ':', '*', '?', '"', '<', '>', '|'].contains c

/-- `INVALID_CHARS.sub(SAFE_SUB, name)`: each maximal run of reserved
characters becomes a single `_`. -/
def collapseInvalidRuns (cs : List Char) : List Char :=
  (cs.foldl (fun (acc : List Char × Bool) c =>
    if isInvalidChar c then (if acc.2 then acc else (acc.1 ++ ['_'], true))
    else (acc.1 ++ [c], false)) ([], false)).1

/-- `name.strip(".")`. -/
def stripDots (cs : List Char) : List Char :=
  ((cs.dropWhile (fun c => c = '.')).reverse.dropWhile (fun c => c = '.')).reverse

/-- `sanitize_filename` (naming.py lines 18-29). -/
def sanitize_filename (s : String) : String :=
  let name : String := ⟨collapseInvalidRuns s.data⟩
  let name := pyStrip name
  let name := if ['.', ' '].isSuffixOf name.data then (⟨name.data.dropLast.dropLast⟩ : String) ++ "." else name
  let stripped : String := ⟨stripDots name.data⟩
  let name := if stripped.isEmpty then "untitled" else name
  ⟨name.data.take 255⟩

/-- `expand_template` (naming.py lines 32-56): detect and warn unknown
tokens, substitute, recover from the first `KeyError` by bare-token removal,
then sanitize.  Returns the filename and the warned token names. -/
def expand_template (ps : List TPart) (v : VideoItemM) (date : String) :
    String × List String :=
  let m := namingMapping v date
  let warnings := unknownTokens ps
  let rendered :=
    match formatParts m ps with
    | .ok s => s
    | .error t => removeBareTok ps t
  (sanitize_filename rendered, warnings)

/-! ## Concrete instances used by witnesses and counterexamples -/

/-- A session that was never closed (`ended` is `None`), as
`download_playlist` leaves `last_session` before line 177 runs. -/
def sessionNoEnd : SessionM :=
  { playlist_url := "pl", session_id := "sid", started := 0, ended := none,
    quality_order := ["720p"], audio_only := false, counts := initCounts,
    videos := [], config_snapshot := [] }

/-- A closed session (`ended` timestamp set). -/
def sessionClosed : SessionM :=
  { playlist_url := "pl", session_id := "sid", started := 0, ended := some 7,
    quality_order := ["720p"], audio_only := false, counts := initCounts,
    videos := [], config_snapshot := [] }

/-- The item of the naming unit scenario: index 1,
title `"Test Video / Sample"`. -/
def sampleVideoNaming : VideoItemM :=
  { index := 1, video_id := "vid123", title := "Test Video / Sample",
    preferred_quality := "720p", selected_quality := some "720p" }

/-- The parsed field list of the default naming template
`"{index:03d}-{title}"` (config.py line 28). -/
def tmplIndexTitle : List TPart :=
  [.tok "index" (some "03d"), .lit "-", .tok "title" none]

/-- A template with two distinct unknown tokens. -/
def twoUnknownTemplate : List TPart :=
  [.tok "alpha" none, .tok "beta" none]

/-- A template whose only unknown token follows known ones. -/
def oneUnknownTemplate : List TPart :=
  [.tok "index" (some "03d"), .lit "-", .tok "unknown" none]

/-- A pure-audio format descriptor. -/
def fmtAudioHigh : FormatM :=
  { format_id := "251", acodec := some "opus", vcodec := some "none",
    abr := some 160, height := none, tbr := none }

/-- A lower-bitrate pure-audio format descriptor. -/
def fmtAudioLow : FormatM :=
  { format_id := "250", acodec := some "opus", vcodec := some "none",
    abr := some 70, height := none, tbr := none }

/-- A combined video+audio format descriptor. -/
def fmtVideo720 : FormatM :=
  { format_id := "22", acodec := some "mp4a", vcodec := some "avc1",
    abr := some 192, height := some 720, tbr := some 1200 }

/-- A mixed format list as metadata extraction would return. -/
def sampleFormats : List FormatM := [fmtVideo720, fmtAudioLow, fmtAudioHigh]

/-- A manifest with one successful entry whose file is
`"001-video.mp4"`. -/
def sampleManifest : ManifestData :=
  { playlist_url := some "pl",
    videos := [("abc", { status := "success", quality := some "720p", fallback := false,
                         retries := 0, filename := some "001-video.mp4" })] }

/-- A filesystem on which exactly `"001-video.mp4"` exists. -/
def fsWithFile : String → Bool := fun s => s == "001-video.mp4"

/-- A filesystem on which nothing exists. -/
def fsEmpty : String → Bool := fun _ => false

/-- A small item list with indices 1..4. -/
def sampleItems : List VideoItemM :=
  [{ index := 1, video_id := "a", title := "Alpha", preferred_quality := "720p" },
   { index := 2, video_id := "b", title := "Beta", preferred_quality := "720p" },
   { index := 3, video_id := "c", title := "Gamma", preferred_quality := "720p" },
   { index := 4, video_id := "d", title := "Delta", preferred_quality := "720p" }]

/-- A script whose first try-body call raises a permanent `DownloadError`. -/
def scriptPerm404 : Nat → AttemptOutcome :=
  fun _ => .raise { kind := .downloadError, msg := "HTTP Error 404: Not Found" }

/-- A script where every try-body call raises a transient error. -/
def scriptTransient : Nat → AttemptOutcome :=
  fun _ => .raise { kind := .otherError, msg := "connection timeout" }

/-- A script raising one transient error and then a permanent one. -/
def scriptTransientThenPerm : Nat → AttemptOutcome :=
  fun i =>
    if i = 0 then .raise { kind := .otherError, msg := "connection timeout" }
    else .raise { kind := .downloadError, msg := "This video is private" }

/-- Playlist entries for the planning scenario: one `None` entry and three
real ones. -/
def sampleEntries : List (Option PEntry) :=
  [some { id := "abc", title := some "Alpha", url := none },
   none,
   some { id := "xyz", title := some "Beta", url := none },
   some { id := "pqr", title := some "Gamma", url := none }]

/-! # Theorems -/

/-! ## C6: caption obtain decision table -/

/-- C6: for every item and flag pair, `obtain` returns only the manual track
when one is found; returns the auto track when manual is absent and auto is
available; returns the empty list when neither is available; and a
manual-only request with no manual track still falls back to the auto
track. -/
theorem c6_captions_obtain :
    ∀ (m a : CaptionTrackM) (mo ao : Option CaptionTrackM) (wm wa : Bool),
      CaptionsService.obtain (some m) ao true wa = [m] ∧
      CaptionsService.obtain none (some a) wm true = [a] ∧
      CaptionsService.obtain none (some a) true false = [a] ∧
      CaptionsService.obtain none none wm wa = [] ∧
      CaptionsService.obtain mo ao false false = [] := by
  intro m a mo ao wm wa
  refine ⟨?_, ?_, ?_, ?_, ?_⟩
  · cases wa <;> rfl
  · cases wm <;> rfl
  · rfl
  · cases wm <;> cases wa <;> rfl
  · rfl

/-! ## C10: no-colon specs are rejected, absent/empty specs are open -/

/-- C10: a `None` or empty spec parses to open bounds on both sides, and
every non-empty spec without a colon raises `IndexRangeError` (a bare index
like `"5"` is rejected). -/
theorem c10_range_requires_colon :
    parse_index_range none = .ok (none, none) ∧
    parse_index_range (some "") = .ok (none, none) ∧
    ∀ s : String, s ≠ "" → strContains s ":" = false →
      parse_index_range (some s) =
        .error (.indexRangeError "Index range must contain colon") := by
  refine ⟨rfl, rfl, ?_⟩
  intro s h1 h2
  simp [parse_index_range, h1, h2]

/-- Witness for C10 at the bare index `"5"`. -/
theorem c10_witness :
    parse_index_range (some "5") =
      .error (.indexRangeError "Index range must contain colon") :=
  c10_range_requires_colon.2.2 "5" (by decide) (by decide)

/-! ## C4: manifest round trip and corruption recovery -/

theorem decodeEntry_encodeEntry (e : EntryM) : decodeEntry (encodeEntry e) = some e := by
  obtain ⟨st, q, fb, r, fn⟩ := e
  cases q <;> cases fn <;> rfl

theorem decodeVideos_encode (vs : List (String × EntryM)) :
    decodeVideos (vs.map (fun p => (p.1, encodeEntry p.2))) = some vs := by
  induction vs with
  | nil => rfl
  | cons p rest ih =>
    obtain ⟨k, e⟩ := p
    simp [decodeVideos, decodeEntry_encodeEntry, ih]

theorem decodeManifest_encodeManifest (d : ManifestData) :
    decodeManifest (encodeManifest d) = some d := by
  obtain ⟨pu, vs⟩ := d
  cases pu <;>
    simp [encodeManifest, decodeManifest, jlookup, encodeOptStr, decodeOptStr,
      decodeVideos_encode]

/-- C4: writing any batch of item outcomes into the manifest, saving
(encoding) and reloading reproduces exactly the same entries; and loading an
unparsable manifest file yields the empty state without failing. -/
theorem c4_manifest_round_trip :
    (∀ items : List VideoItemM,
      Manifest.load (some (some (encodeManifest
          (items.foldl Manifest.update_video emptyManifestData)))) =
        items.foldl Manifest.update_video emptyManifestData) ∧
    Manifest.load (some none) = emptyManifestData ∧
    emptyManifestData.videos = [] := by
  refine ⟨fun items => ?_, rfl, rfl⟩
  simp [Manifest.load, decodeManifest_encodeManifest]

/-! ## C1: session counts invariant -/

theorem incrementCounts_total_sum (o : OutcomeM) (c : Counts)
    (ho : o.status ≠ .pending)
    (hc : c.total = c.success + c.failed + c.skipped) :
    (incrementCounts c o.status o.fallbackApplied).total =
      (incrementCounts c o.status o.fallbackApplied).success +
      (incrementCounts c o.status o.fallbackApplied).failed +
      (incrementCounts c o.status o.fallbackApplied).skipped := by
  cases hst : o.status with
  | pending => exact absurd hst ho
  | success => cases o.fallbackApplied <;> simp [incrementCounts] <;> omega
  | failed => cases o.fallbackApplied <;> simp [incrementCounts] <;> omega
  | skipped => cases o.fallbackApplied <;> simp [incrementCounts] <;> omega

theorem runBatchFrom_total_sum (os : List OutcomeM) :
    ∀ c : Counts, (∀ o ∈ os, o.status ≠ .pending) →
      c.total = c.success + c.failed + c.skipped →
      (runBatchFrom c os).total =
        (runBatchFrom c os).success + (runBatchFrom c os).failed +
        (runBatchFrom c os).skipped := by
  induction os with
  | nil => intro c _ hc; simpa [runBatchFrom] using hc
  | cons o rest ih =>
    intro c h hc
    have hstep : runBatchFrom c (o :: rest) =
        runBatchFrom (incrementCounts c o.status o.fallbackApplied) rest := rfl
    rw [hstep]
    exact ih _ (fun x hx => h x (List.mem_cons_of_mem o hx))
      (incrementCounts_total_sum o c (h o (List.mem_cons_self o rest)) hc)

/-- C1: counts start at all zeros; each completion with a terminal status
increments exactly the matching one of `success`/`failed`/`skipped` plus
`total` (and `fallbacks` exactly when a fallback was applied), no counter
ever decreases, and every batch of terminal completions satisfies
`total = success + failed + skipped`. -/
theorem c1_session_counts :
    (initCounts.total = 0 ∧ initCounts.success = 0 ∧ initCounts.failed = 0 ∧
      initCounts.skipped = 0 ∧ initCounts.fallbacks = 0) ∧
    (∀ (c : Counts) (st : VStatus) (fb : Bool),
      (incrementCounts c st fb).total = c.total + 1 ∧
      c.success ≤ (incrementCounts c st fb).success ∧
      c.failed ≤ (incrementCounts c st fb).failed ∧
      c.skipped ≤ (incrementCounts c st fb).skipped ∧
      c.total ≤ (incrementCounts c st fb).total ∧
      c.fallbacks ≤ (incrementCounts c st fb).fallbacks ∧
      (incrementCounts c st fb).fallbacks = c.fallbacks + (if fb then 1 else 0) ∧
      (st = .success →
        (incrementCounts c st fb).success = c.success + 1 ∧
        (incrementCounts c st fb).failed = c.failed ∧
        (incrementCounts c st fb).skipped = c.skipped) ∧
      (st = .failed →
        (incrementCounts c st fb).failed = c.failed + 1 ∧
        (incrementCounts c st fb).success = c.success ∧
        (incrementCounts c st fb).skipped = c.skipped) ∧
      (st = .skipped →
        (incrementCounts c st fb).skipped = c.skipped + 1 ∧
        (incrementCounts c st fb).success = c.success ∧
        (incrementCounts c st fb).failed = c.failed)) ∧
    (∀ os : List OutcomeM, (∀ o ∈ os, o.status ≠ .pending) →
      (runBatch os).total =
        (runBatch os).success + (runBatch os).failed + (runBatch os).skipped) := by
  refine ⟨⟨rfl, rfl, rfl, rfl, rfl⟩, ?_, ?_⟩
  · intro c st fb
    cases st <;> cases fb <;> simp [incrementCounts]
  · intro os h
    exact runBatchFrom_total_sum os initCounts h rfl

/-- Witness for C1: a scripted batch of two successes (one with a fallback),
one failure and one skip balances, and a single success increment behaves as
stated. -/
theorem c1_witness :
    (runBatch [⟨.success, false⟩, ⟨.failed, false⟩, ⟨.success, true⟩, ⟨.skipped, false⟩]).total =
      (runBatch [⟨.success, false⟩, ⟨.failed, false⟩, ⟨.success, true⟩, ⟨.skipped, false⟩]).success +
      (runBatch [⟨.success, false⟩, ⟨.failed, false⟩, ⟨.success, true⟩, ⟨.skipped, false⟩]).failed +
      (runBatch [⟨.success, false⟩, ⟨.failed, false⟩, ⟨.success, true⟩, ⟨.skipped, false⟩]).skipped ∧
    (incrementCounts initCounts .success true).success = initCounts.success + 1 := by
  constructor
  · exact c1_session_counts.2.2
      [⟨.success, false⟩, ⟨.failed, false⟩, ⟨.success, true⟩, ⟨.skipped, false⟩]
      (by intro o ho; fin_cases ho <;> decide)
  · exact ((c1_session_counts.2.1 initCounts .success true).2.2.2.2.2.2.2.1 rfl).1

/-! ## C5: purity of the report builder -/

/-- C5 counterexample: on a session whose `ended` timestamp is unset, the
report stamps the clock value of the call (`session.ended or
datetime.utcnow()`), so two calls at different instants produce different
structured output. -/
theorem c5_counterexample :
    build_session_report sessionNoEnd 0 ≠ build_session_report sessionNoEnd 1 := by
  decide

/-- C5 (amended): `build_session_report` reads the session and the clock
only; on any session whose `ended` timestamp is set, the clock is unused, so
repeated calls on an unmutated closed session give identical output. -/
theorem c5_report_pure :
    ∀ (s : SessionM) (t1 t2 e : Nat), s.ended = some e →
      build_session_report s t1 = build_session_report s t2 := by
  intro s t1 t2 e h
  simp [build_session_report, h]

/-- Witness for C5 on a concrete closed session. -/
theorem c5_witness :
    build_session_report sessionClosed 0 = build_session_report sessionClosed 1 :=
  c5_report_pure sessionClosed 0 1 7 rfl

/-! ## C2: retry policy -/

theorem retryGo_calls_le (script : Nat → AttemptOutcome) :
    ∀ (fuel calls attempts : Nat) (sleeps : List Nat) (le : Option ErrInfo),
      3 - attempts ≤ fuel →
      (retryGo script calls attempts sleeps le).calls ≤ calls + (3 - attempts) := by
  intro fuel
  induction fuel with
  | zero =>
    intro calls attempts sleeps le h
    have hge : ¬ attempts < 3 := by omega
    rw [retryGo]
    simp [hge]
  | succ n ih =>
    intro calls attempts sleeps le h
    by_cases hlt : attempts < 3
    · rw [retryGo]
      simp only [hlt, dite_true, dif_pos]
      cases hsc : script calls with
      | ret r => simp; omega
      | raise e =>
        by_cases hperm : isPermanentErr e = true
        · simp [hperm]; omega
        · by_cases hmax : attempts + 1 ≥ 3
          · simp [hperm, hmax]; omega
          · simp only [hperm, hmax, if_false, ite_false, Bool.false_eq_true]
            calc (retryGo script (calls + 1) (attempts + 1)
                    (sleeps ++ [1 * (attempts + 1)]) (some e)).calls
                ≤ (calls + 1) + (3 - (attempts + 1)) := ih _ _ _ _ (by omega)
              _ ≤ calls + (3 - attempts) := by omega
    · rw [retryGo]; simp [hlt]

/-- C2: an error the code classifies permanent stops the retry loop at once
(one try-body call, no backoff, failure carrying that error's description) —
also after earlier transient attempts; transient errors are retried up to the
fixed cap of 3 attempts with backoff `attempts * 1` seconds (1s then 2s), and
exhausting the cap marks the item failed with the last error's description;
no run ever makes more than 3 try-body calls. -/
theorem c2_retry_policy :
    ∀ (script : Nat → AttemptOutcome) (url : String),
      (∀ e, script 0 = .raise e → isPermanentErr e = true →
        processVideo script url =
          (some { url := url, title := url, status := "failed",
                  failure_reason := some (errDescription e) }, 1, [])) ∧
      (∀ e0 e1, script 0 = .raise e0 → isPermanentErr e0 = false →
        script 1 = .raise e1 → isPermanentErr e1 = true →
        processVideo script url =
          (some { url := url, title := url, status := "failed",
                  failure_reason := some (errDescription e1) }, 2, [1])) ∧
      (∀ e0 e1 e2, script 0 = .raise e0 → isPermanentErr e0 = false →
        script 1 = .raise e1 → isPermanentErr e1 = false →
        script 2 = .raise e2 → isPermanentErr e2 = false →
        processVideo script url =
          (some { url := url, title := url, status := "failed",
                  failure_reason := some (errDescription e2) }, 3, [1, 2])) ∧
      (processVideo script url).2.1 ≤ 3 := by
  intro script url
  refine ⟨?_, ?_, ?_, ?_⟩
  · intro e h0 hp
    have t : retryGo script 0 0 [] none =
        { result := none, calls := 1, sleeps := [], lastExc := some e } := by
      rw [retryGo]; simp [h0, hp]
    simp [processVideo, t]
  · intro e0 e1 h0 hp0 h1 hp1
    have t : retryGo script 0 0 [] none =
        { result := none, calls := 2, sleeps := [1], lastExc := some e1 } := by
      rw [retryGo]; simp only [h0, hp0]
      rw [retryGo]; simp [h1, hp1]
    simp [processVideo, t]
  · intro e0 e1 e2 h0 hp0 h1 hp1 h2 hp2
    have t : retryGo script 0 0 [] none =
        { result := none, calls := 3, sleeps := [1, 2], lastExc := some e2 } := by
      rw [retryGo]; simp only [h0, hp0]
      rw [retryGo]; simp only [h1, hp1]
      rw [retryGo]; simp [h2, hp2]
    simp [processVideo, t]
  · have hc := retryGo_calls_le script 3 0 0 [] none (by omega)
    simp only [processVideo]
    cases hres : (retryGo script 0 0 [] none).result with
    | some r => simp [hres]; omega
    | none =>
      cases hle : (retryGo script 0 0 [] none).lastExc <;> simp [hres, hle] <;> omega

/-- Witness for C2 on three concrete scripts: an immediately permanent 404,
three transient timeouts, and a transient timeout followed by a permanent
private-video error. -/
theorem c2_witness :
    processVideo scriptPerm404 "u" =
      (some { url := "u", title := "u", status := "failed",
              failure_reason := some (errDescription
                { kind := .downloadError, msg := "HTTP Error 404: Not Found" }) }, 1, []) ∧
    processVideo scriptTransient "u" =
      (some { url := "u", title := "u", status := "failed",
              failure_reason := some (errDescription
                { kind := .otherError, msg := "connection timeout" }) }, 3, [1, 2]) ∧
    processVideo scriptTransientThenPerm "u" =
      (some { url := "u", title := "u", status := "failed",
              failure_reason := some (errDescription
                { kind := .downloadError, msg := "This video is private" }) }, 2, [1]) := by
  refine ⟨?_, ?_, ?_⟩
  · exact (c2_retry_policy scriptPerm404 "u").1
      { kind := .downloadError, msg := "HTTP Error 404: Not Found" } rfl (by decide)
  · exact (c2_retry_policy scriptTransient "u").2.2.1
      { kind := .otherError, msg := "connection timeout" }
      { kind := .otherError, msg := "connection timeout" }
      { kind := .otherError, msg := "connection timeout" }
      rfl (by decide) rfl (by decide) rfl (by decide)
  · exact (c2_retry_policy scriptTransientThenPerm "u").2.1
      { kind := .otherError, msg := "connection timeout" }
      { kind := .downloadError, msg := "This video is private" }
      rfl (by decide) rfl (by decide)

/-! ## C3: resume skip correctness and planning-time exclusion -/

theorem assoc_nodup_eq {l : List (String × EntryM)} (h : (l.map Prod.fst).Nodup)
    {k : String} {a b : EntryM} (ha : (k, a) ∈ l) (hb : (k, b) ∈ l) : a = b := by
  induction l with
  | nil => cases ha
  | cons p rest ih =>
    rw [List.map_cons, List.nodup_cons] at h
    obtain ⟨hp, hrest⟩ := h
    rcases List.mem_cons.1 ha with ha1 | ha2 <;> rcases List.mem_cons.1 hb with hb1 | hb2
    · exact (Prod.ext_iff.1 (ha1.trans hb1.symm)).2
    · refine absurd ?_ hp
      have hk : p.1 = k := by rw [← ha1]
      rw [hk]
      exact List.mem_map_of_mem Prod.fst hb2
    · refine absurd ?_ hp
      have hk : p.1 = k := by rw [← hb1]
      rw [hk]
      exact List.mem_map_of_mem Prod.fst ha2
    · exact ih hrest ha2 hb2

theorem buildItemsGo_not_skipped (skips : List String) (pq : String) (au : Bool) :
    ∀ (entries : List (Option PEntry)) (idx : Nat) (v : VideoItemM),
      v ∈ buildItemsGo skips pq au entries idx → skips.contains v.video_id = false := by
  intro entries
  induction entries with
  | nil => intro idx v hv; cases hv
  | cons oe rest ih =>
    intro idx v hv
    cases oe with
    | none => exact ih (idx + 1) v hv
    | some e =>
      by_cases hc : skips.contains e.id
      · rw [buildItemsGo] at hv
        simp only [hc, if_true] at hv
        exact ih (idx + 1) v hv
      · rw [buildItemsGo] at hv
        simp only [hc, if_false] at hv
        rcases List.mem_cons.1 hv with h1 | h2
        · subst h1; simpa using hc
        · exact ih (idx + 1) v h2

/-- C3: a manifest entry with status `success` is in the resume skip set if
and only if its recorded (nonempty) filename exists in the output directory;
and on a resume run without `--force`, no item whose id is in the skip set
survives planning — the exclusion happens while the item list is built,
before filtering and before anything is scheduled. -/
theorem c3_resume_skip :
    (∀ (d : ManifestData) (fs : String → Bool) (vid : String) (e : EntryM) (fn : String),
      (d.videos.map Prod.fst).Nodup → (vid, e) ∈ d.videos → e.status = "success" →
      e.filename = some fn → fn ≠ "" →
      (vid ∈ Manifest.compute_skips d fs ↔ fs fn = true)) ∧
    (∀ (entries : List (Option PEntry)) (d : ManifestData) (fs : String → Bool)
        (pq : String) (au : Bool) (v : VideoItemM),
      v ∈ buildItems entries (effectiveSkips true false d fs) pq au →
      v.video_id ∉ Manifest.compute_skips d fs) ∧
    (∀ (entries : List (Option PEntry)) (d : ManifestData) (fs : String → Bool)
        (filters : Option (List String)) (rng : Option String) (pq : String)
        (au : Bool) (out : List VideoItemM) (v : VideoItemM),
      planPlaylist entries true false d fs filters rng pq au = .ok out →
      v ∈ out → v.video_id ∉ Manifest.compute_skips d fs) := by
  have hskips : ∀ (d : ManifestData) (fs : String → Bool),
      effectiveSkips true false d fs = Manifest.compute_skips d fs := fun _ _ => rfl
  have hexclude : ∀ (entries : List (Option PEntry)) (d : ManifestData)
      (fs : String → Bool) (pq : String) (au : Bool) (v : VideoItemM),
      v ∈ buildItems entries (effectiveSkips true false d fs) pq au →
      v.video_id ∉ Manifest.compute_skips d fs := by
    intro entries d fs pq au v hv hmem
    have hc := buildItemsGo_not_skipped (effectiveSkips true false d fs) pq au entries 1 v hv
    rw [hskips] at hc
    simp only [List.contains, List.elem_eq_mem, decide_eq_false_iff_not] at hc
    exact hc hmem
  refine ⟨?_, hexclude, ?_⟩
  · intro d fs vid e fn hnd hmem hst hfn hne
    constructor
    · intro hin
      simp only [Manifest.compute_skips, List.mem_map] at hin
      obtain ⟨p, hp, hfst⟩ := hin
      rw [List.mem_filter] at hp
      obtain ⟨hpmem, hpred⟩ := hp
      have hpe : p.2 = e := by
        apply assoc_nodup_eq hnd _ hmem
        rw [← hfst]
        exact hpmem
      rw [hpe, hfn] at hpred
      simp only [Bool.and_eq_true] at hpred
      exact hpred.2.2
    · intro hfs
      simp only [Manifest.compute_skips, List.mem_map]
      refine ⟨(vid, e), ?_, rfl⟩
      rw [List.mem_filter]
      refine ⟨hmem, ?_⟩
      simp [hst, hfn, hne, hfs]
  · intro entries d fs filters rng pq au out v hplan hv
    simp only [planPlaylist, apply_filters] at hplan
    cases hp : parse_index_range rng with
    | error e => rw [hp] at hplan; cases hplan
    | ok bounds =>
      rw [hp] at hplan
      simp only [Except.ok.injEq] at hplan
      rw [← hplan] at hv
      exact hexclude entries d fs pq au v (List.mem_filter.1 hv).1

/-- Witness for C3: with one successful manifest entry recorded as
`"001-video.mp4"`, the id is skipped exactly when that file exists, and a
surviving planned item is not in the skip set. -/
theorem c3_witness :
    "abc" ∈ Manifest.compute_skips sampleManifest fsWithFile ∧
    "abc" ∉ Manifest.compute_skips sampleManifest fsEmpty ∧
    ({ index := 3, video_id := "xyz", title := "Beta",
       preferred_quality := "720p" } : VideoItemM).video_id ∉
      Manifest.compute_skips sampleManifest fsWithFile := by
  refine ⟨?_, ?_, ?_⟩
  · exact (c3_resume_skip.1 sampleManifest fsWithFile "abc"
      { status := "success", quality := some "720p", fallback := false,
        retries := 0, filename := some "001-video.mp4" } "001-video.mp4"
      (by decide) (by decide) rfl rfl (by decide)).2 (by decide)
  · intro h
    exact absurd ((c3_resume_skip.1 sampleManifest fsEmpty "abc"
      { status := "success", quality := some "720p", fallback := false,
        retries := 0, filename := some "001-video.mp4" } "001-video.mp4"
      (by decide) (by decide) rfl rfl (by decide)).1 h) (by decide)
  · exact c3_resume_skip.2.1 sampleEntries sampleManifest fsWithFile "720p" false
      { index := 3, video_id := "xyz", title := "Beta", preferred_quality := "720p" }
      (by decide)

/-! ## C7: inclusive index range filtering -/

/-- C7: whenever a range spec parses, filtering with it alone keeps exactly
the items whose 1-based index lies within the (inclusive, optionally
one-sided) bounds, in input order (the result is a sublist); a spec that
parses to two bounds always satisfies `start ≤ end`; and a spec whose two
numeric sides are inverted raises the `End before start` validation error. -/
theorem c7_range_filtering :
    (∀ (spec : String) (videos : List VideoItemM) (so eo : Option Int),
      parse_index_range (some spec) = .ok (so, eo) →
      apply_filters videos none (some spec) = .ok (videos.filter (inIndexRange so eo)) ∧
      (videos.filter (inIndexRange so eo)).Sublist videos ∧
      (∀ v, v ∈ videos.filter (inIndexRange so eo) ↔
        v ∈ videos ∧ (∀ s, so = some s → s ≤ (v.index : Int)) ∧
          (∀ e, eo = some e → (v.index : Int) ≤ e))) ∧
    (∀ (spec : String) (s e : Int),
      parse_index_range (some spec) = .ok (some s, some e) → s ≤ e) ∧
    (∀ (spec : String) (s e : Int),
      strContains spec ":" = true →
      parsePyInt (splitOnceColon spec).1 = some s →
      parsePyInt (splitOnceColon spec).2 = some e →
      e < s →
      parse_index_range (some spec) = .error (.indexRangeError "End before start")) := by
  refine ⟨?_, ?_, ?_⟩
  · intro spec videos so eo hp
    refine ⟨by simp [apply_filters, hp], List.filter_sublist _, ?_⟩
    intro v
    rw [List.mem_filter]
    have hiff : inIndexRange so eo v = true ↔
        (∀ s, so = some s → s ≤ (v.index : Int)) ∧
        (∀ e, eo = some e → (v.index : Int) ≤ e) := by
      cases so <;> cases eo <;> simp [inIndexRange]
    rw [hiff]
  · intro spec s e h
    simp only [parse_index_range] at h
    split at h
    · simp at h
    · split at h
      · simp at h
      · split at h
        · simp at h
        · split at h
          · simp at h
          · split at h
            · split at h
              · simp at h
              · simp only [Except.ok.injEq, Prod.mk.injEq, Option.some.injEq] at h
                obtain ⟨h1, h2⟩ := h
                subst h1; subst h2
                omega
            · simp only [Except.ok.injEq, Prod.mk.injEq] at h
              obtain ⟨h1, h2⟩ := h
              subst h1; subst h2
              rename_i hcatch
              exact absurd rfl (by intro hx; exact hcatch s e hx rfl)
  · intro spec s e hc h1 h2 hlt
    have hne : spec ≠ "" := by
      intro h0; rw [h0] at hc; exact absurd hc (by decide)
    have hq1 : (splitOnceColon spec).1 ≠ "" := by
      intro h0; rw [h0] at h1
      rw [show parsePyInt "" = none from rfl] at h1
      simp at h1
    have hq2 : (splitOnceColon spec).2 ≠ "" := by
      intro h0; rw [h0] at h2
      rw [show parsePyInt "" = none from rfl] at h2
      simp at h2
    simp [parse_index_range, hne, hc, hq1, hq2, h1, h2, hlt]

/-- Witness for C7: the spec `"2:5"` keeps exactly indices 2..5 of the
sample items, its bounds are ordered, and `"5:2"` is rejected. -/
theorem c7_witness :
    apply_filters sampleItems none (some "2:5") =
      .ok (sampleItems.filter (inIndexRange (some 2) (some 5))) ∧
    (2 : Int) ≤ 5 ∧
    parse_index_range (some "5:2") = .error (.indexRangeError "End before start") := by
  refine ⟨?_, ?_, ?_⟩
  · exact (c7_range_filtering.1 "2:5" sampleItems (some 2) (some 5) (by rfl)).1
  · exact c7_range_filtering.2.1 "2:5" 2 5 (by rfl)
  · exact c7_range_filtering.2.2 "5:2" 5 2 (by decide) (by decide) (by decide) (by decide)

/-! ## C8: audio-only format chain -/

theorem pickMaxAbrGo_mem :
    ∀ (l : List FormatM) (acc : Option FormatM) (f : FormatM),
      pickMaxAbrGo acc l = some f → acc = some f ∨ f ∈ l := by
  intro l
  induction l with
  | nil =>
    intro acc f h
    cases acc with
    | none => left; exact h
    | some a => left; exact h
  | cons g rest ih =>
    intro acc f h
    cases acc with
    | none =>
      rcases ih (some g) f h with h1 | h2
      · right; exact List.mem_cons.2 (Or.inl (Option.some.inj h1).symm)
      · right; exact List.mem_cons_of_mem _ h2
    | some a =>
      simp only [pickMaxAbrGo] at h
      by_cases hlt : abrKey a < abrKey g
      · rw [if_pos hlt] at h
        rcases ih (some g) f h with h1 | h2
        · right; exact List.mem_cons.2 (Or.inl (Option.some.inj h1).symm)
        · right; exact List.mem_cons_of_mem _ h2
      · rw [if_neg hlt] at h
        rcases ih (some a) f h with h1 | h2
        · left; exact h1
        · right; exact List.mem_cons_of_mem _ h2

theorem pickMaxAbrGo_max :
    ∀ (l : List FormatM) (acc : Option FormatM) (f : FormatM),
      pickMaxAbrGo acc l = some f →
      (∀ a, acc = some a → abrKey a ≤ abrKey f) ∧ (∀ g ∈ l, abrKey g ≤ abrKey f) := by
  intro l
  induction l with
  | nil =>
    intro acc f h
    cases acc with
    | none =>
      refine ⟨fun a ha => Option.noConfusion ha, fun g hg => absurd hg (List.not_mem_nil g)⟩
    | some a =>
      have h2 : a = f := Option.some.inj h
      subst h2
      refine ⟨fun x hx => ?_, fun g hg => absurd hg (List.not_mem_nil g)⟩
      obtain rfl : a = x := Option.some.inj hx
      omega
  | cons g rest ih =>
    intro acc f h
    cases acc with
    | none =>
      have hg := ih (some g) f h
      refine ⟨fun a ha => Option.noConfusion ha, fun x hx => ?_⟩
      rcases List.mem_cons.1 hx with h1 | h2
      · rw [h1]; exact hg.1 g rfl
      · exact hg.2 x h2
    | some a =>
      simp only [pickMaxAbrGo] at h
      by_cases hlt : abrKey a < abrKey g
      · rw [if_pos hlt] at h
        have hg := ih (some g) f h
        have hgf := hg.1 g rfl
        refine ⟨fun x hx => ?_, fun x hx => ?_⟩
        · obtain rfl : a = x := Option.some.inj hx
          omega
        · rcases List.mem_cons.1 hx with h1 | h2
          · rw [h1]; exact hgf
          · exact hg.2 x h2
      · rw [if_neg hlt] at h
        have ha := ih (some a) f h
        have haf := ha.1 a rfl
        refine ⟨ha.1, fun x hx => ?_⟩
        rcases List.mem_cons.1 hx with h1 | h2
        · rw [h1]; omega
        · exact ha.2 x h2

/-- C8: in audio-only mode the in-process selection is a single step over the
pure-audio formats — the selected format always carries audio and no video
stream and has the maximal audio bitrate among pure-audio formats, the
selection is independent of the requested quality height, and when no
pure-audio format exists nothing is selected (no video fallback is tried);
the download request's format selector is the fixed `"bestaudio/best"`
string, whose chain is one best-audio request plus the generic `best` last
resort and contains no video fallback step (no `bestvideo` component, no
height-constrained selector). -/
theorem c8_audio_chain :
    (∀ (formats : List FormatM) (th : Int) (f : FormatM),
      selectInProcessFormat formats true th = some f →
      f ∈ formats ∧ hasAudio f = true ∧ noVideo f = true ∧
      ∀ g ∈ formats, hasAudio g = true → noVideo g = true → abrKey g ≤ abrKey f) ∧
    (∀ (formats : List FormatM) (th1 th2 : Int),
      selectInProcessFormat formats true th1 = selectInProcessFormat formats true th2) ∧
    (∀ (formats : List FormatM) (th : Int),
      audioCandidates formats = [] → selectInProcessFormat formats true th = none) ∧
    (∀ th : Int, selectorChain (downloadFormatSelector true th) = ["bestaudio", "best"]) ∧
    (∀ (th : Int) (step : String),
      step ∈ selectorChain (downloadFormatSelector true th) →
      isVideoFallbackStep step = false) := by
  refine ⟨?_, ?_, ?_, ?_, ?_⟩
  · intro formats th f h
    have hsel : pickMaxAbr (audioCandidates formats) = some f := h
    have hmem := pickMaxAbrGo_mem (audioCandidates formats) none f hsel
    rcases hmem with h1 | h2
    · cases h1
    · have hf := List.mem_filter.1 h2
      have hpred := hf.2
      simp only [Bool.and_eq_true] at hpred
      refine ⟨hf.1, hpred.1, hpred.2, ?_⟩
      intro g hg hga hgv
      exact (pickMaxAbrGo_max (audioCandidates formats) none f hsel).2 g
        (List.mem_filter.2 ⟨hg, by simp [hga, hgv]⟩)
  · intro formats th1 th2; rfl
  · intro formats th hempty
    show pickMaxAbr (audioCandidates formats) = none
    rw [hempty]
    rfl
  · intro th; rfl
  · intro th step hstep
    have : step = "bestaudio" ∨ step = "best" := by
      have hc : selectorChain (downloadFormatSelector true th) = ["bestaudio", "best"] := rfl
      rw [hc] at hstep
      simpa using hstep
    rcases this with h | h <;> rw [h] <;> decide

/-- Witness for C8: on a mixed format list the audio-only selection picks the
high-bitrate pure-audio format regardless of the requested height, an
all-video list selects nothing, and the concrete chain facts hold. -/
theorem c8_witness :
    (fmtAudioHigh ∈ sampleFormats ∧ hasAudio fmtAudioHigh = true ∧
      noVideo fmtAudioHigh = true ∧
      ∀ g ∈ sampleFormats, hasAudio g = true → noVideo g = true →
        abrKey g ≤ abrKey fmtAudioHigh) ∧
    selectInProcessFormat [fmtVideo720] true 720 = none ∧
    selectorChain (downloadFormatSelector true 720) = ["bestaudio", "best"] := by
  refine ⟨?_, ?_, ?_⟩
  · exact c8_audio_chain.1 sampleFormats 720 fmtAudioHigh (by rfl)
  · exact c8_audio_chain.2.2.1 [fmtVideo720] 720 (by rfl)
  · exact c8_audio_chain.2.2.2.1 720

/-! ## C9: naming template rendering and unknown-token handling -/

/-- C9 counterexample: with two distinct unknown tokens, substitution raises
on the first (`alpha`), recovery deletes only that token's bare occurrences,
and the second unknown token survives into the returned filename — it is
warned about but not removed. -/
theorem c9_counterexample :
    expand_template twoUnknownTemplate sampleVideoNaming "2025-01-01" =
      ("\x7bbeta\x7d", ["alpha", "beta"]) ∧
    strContains (expand_template twoUnknownTemplate sampleVideoNaming "2025-01-01").1
      "\x7bbeta\x7d" = true := by
  constructor
  · decide
  · decide

theorem lookupM_known (v : VideoItemM) (date : String) (n : String)
    (h : ALLOWED_TOKENS.contains n = true) :
    (lookupM (namingMapping v date) n).isSome = true := by
  simp only [ALLOWED_TOKENS, List.contains, List.elem_eq_mem, decide_eq_true_eq] at h
  simp only [List.mem_cons, List.not_mem_nil, or_false] at h
  rcases h with h | h | h | h | h | h <;> subst h <;> rfl

theorem lookupM_unknown (v : VideoItemM) (date : String) (n : String)
    (h : ALLOWED_TOKENS.contains n = false) :
    lookupM (namingMapping v date) n = none := by
  simp only [ALLOWED_TOKENS, List.contains, List.elem_eq_mem,
    decide_eq_false_iff_not] at h
  simp only [List.mem_cons, List.not_mem_nil, or_false, not_or] at h
  obtain ⟨h1, h2, h3, h4, h5, h6⟩ := h
  simp [namingMapping, lookupM, Ne.symm h1, Ne.symm h2, Ne.symm h3, Ne.symm h4,
    Ne.symm h5, Ne.symm h6]

theorem formatParts_ok_of_known (v : VideoItemM) (date : String) :
    ∀ ps : List TPart,
      (∀ n sp, TPart.tok n sp ∈ ps → ALLOWED_TOKENS.contains n = true) →
      ∃ out, formatParts (namingMapping v date) ps = .ok out := by
  intro ps
  induction ps with
  | nil => intro _; exact ⟨"", rfl⟩
  | cons p rest ih =>
    intro h
    obtain ⟨out, hout⟩ := ih (fun n sp hm => h n sp (List.mem_cons_of_mem p hm))
    cases p with
    | lit s => exact ⟨s ++ out, by simp [formatParts, hout]⟩
    | tok n sp =>
      have hn := h n sp (List.mem_cons_self _ _)
      obtain ⟨mv, hmv⟩ := Option.isSome_iff_exists.1 (lookupM_known v date n hn)
      exact ⟨applySpec sp mv ++ out, by simp [formatParts, hmv, hout]⟩

theorem formatParts_first_unknown (v : VideoItemM) (date : String) (t : String)
    (ht : ALLOWED_TOKENS.contains t = false) :
    ∀ (pre post : List TPart),
      (∀ n sp, TPart.tok n sp ∈ pre → ALLOWED_TOKENS.contains n = true) →
      formatParts (namingMapping v date) (pre ++ .tok t none :: post) = .error t := by
  intro pre
  induction pre with
  | nil =>
    intro post _
    simp [formatParts, lookupM_unknown v date t ht]
  | cons p rest ih =>
    intro post h
    have hrest := ih post (fun n sp hm => h n sp (List.mem_cons_of_mem p hm))
    cases p with
    | lit s => simp [formatParts, hrest]
    | tok n sp =>
      have hn := h n sp (List.mem_cons_self _ _)
      obtain ⟨mv, hmv⟩ := Option.isSome_iff_exists.1 (lookupM_known v date n hn)
      simp [formatParts, hmv, hrest]

/-- C9 (amended): the default template `"{index:03d}-{title}"` renders the
sample item to exactly `"001-Test Video _ Sample"` with no warnings; every
unknown token of any template is surfaced in the warnings; a template whose
tokens are all known substitutes without raising; and when the leftmost
unknown token is bare, substitution recovers by deleting that token's bare
occurrences from the raw template and sanitizing the remainder (later
tokens, known or unknown, are left unsubstituted — only the first failing
token is removed). -/
theorem c9_naming_template :
    (∀ date : String,
      expand_template tmplIndexTitle sampleVideoNaming date =
        ("001-Test Video _ Sample", [])) ∧
    (∀ (ps : List TPart) (v : VideoItemM) (date n : String) (sp : Option String),
      TPart.tok n sp ∈ ps → ALLOWED_TOKENS.contains n = false →
      n ∈ (expand_template ps v date).2) ∧
    (∀ (ps : List TPart) (v : VideoItemM) (date : String),
      (∀ n sp, TPart.tok n sp ∈ ps → ALLOWED_TOKENS.contains n = true) →
      ∃ out, formatParts (namingMapping v date) ps = .ok out ∧
        expand_template ps v date = (sanitize_filename out, unknownTokens ps)) ∧
    (∀ (pre post : List TPart) (v : VideoItemM) (date t : String),
      (∀ n sp, TPart.tok n sp ∈ pre → ALLOWED_TOKENS.contains n = true) →
      ALLOWED_TOKENS.contains t = false →
      expand_template (pre ++ .tok t none :: post) v date =
        (sanitize_filename (removeBareTok (pre ++ .tok t none :: post) t),
         unknownTokens (pre ++ .tok t none :: post))) := by
  refine ⟨fun date => rfl, ?_, ?_, ?_⟩
  · intro ps v date n sp hmem hunk
    show n ∈ unknownTokens ps
    simp only [unknownTokens, List.mem_filterMap]
    refine ⟨.tok n sp, hmem, ?_⟩
    have hn : n ∉ ALLOWED_TOKENS := by
      simpa [List.contains] using hunk
    simp [hn]
  · intro ps v date h
    obtain ⟨out, hout⟩ := formatParts_ok_of_known v date ps h
    exact ⟨out, hout, by simp [expand_template, hout]⟩
  · intro pre post v date t hpre ht
    have herr := formatParts_first_unknown v date t ht pre post hpre
    simp [expand_template, herr]

/-- Witness for C9 on the template `"{index:03d}-{unknown}"`-style part list
`oneUnknownTemplate`: the unknown token is warned and handled by bare-token
removal. -/
theorem c9_witness :
    expand_template oneUnknownTemplate sampleVideoNaming "2025-01-01" =
      (sanitize_filename (removeBareTok oneUnknownTemplate "unknown"),
       unknownTokens oneUnknownTemplate) ∧
    "unknown" ∈ (expand_template oneUnknownTemplate sampleVideoNaming "2025-01-01").2 := by
  constructor
  · exact c9_naming_template.2.2.2 [.tok "index" (some "03d"), .lit "-"] []
      sampleVideoNaming "2025-01-01" "unknown"
      (by
        intro n sp hm
        simp only [List.mem_cons, List.not_mem_nil, or_false] at hm
        rcases hm with hm | hm
        · obtain ⟨h1, h2⟩ := TPart.tok.inj hm
          subst h1
          decide
        · exact TPart.noConfusion hm)
      (by decide)
  · exact c9_naming_template.2.1 oneUnknownTemplate sampleVideoNaming "2025-01-01"
      "unknown" none (by decide) (by decide)
